import Mathlib

/-!
Verification of the MedJournee speaker-identity resolution pipeline.

This file gives a shallow embedding of the pipeline code into Lean and proves (or
refutes) the behavioural claims of the design specification against it.  Python
floats are modelled as exact rationals; a float value of the form `a / sqrt b`
(produced by cosine similarity, whose denominator is a product of Euclidean
norms) is represented exactly by the pair `⟨a, b⟩` (see `SimVal`), so that all
similarity comparisons performed by the code become decidable rational
comparisons, and the real value of a similarity is written out as
`a / Real.sqrt b` inside theorem statements.

The embedded components, and the source functions they are translated from:
  - speaker role resolver            (routes/combined_translation.py, enhanced_live_diarize)
  - alternating-speaker fallback     (services/realtime_transcription_service.py)
  - diarization result parser        (services/cloud_speaker_service.py)
  - live session manager             (routes/live_translation.py)
  - voice similarity and matching    (services/voice_enrollment_service.py)
  - enrollment embedding extraction  (services/voice_enrollment_service.py)
-/

namespace MedJournee

/-! ## Speaker role resolver

Embedding of the per-segment assignment logic of `enhanced_live_diarize`
(routes/combined_translation.py, lines 431-452).  The route reads the segment's
`enrollment_confidence` (default 0) and rewrites the speaker fields. -/

/-- Result fields written onto a segment by the enrollment-priority assignment. -/
structure RoleAssignment where
  speaker : String
  speaker_role : String
  enrolled_speaker : Option String
  assignment_method : String
deriving DecidableEq, Repr

/-- Per-segment assignment of `enhanced_live_diarize`: confidence at least 0.70
gives Patient/Family as `SPEAKER_2`, anything below defaults to the provider. -/
def assign_speaker_role (enrollment_confidence : ℚ) (enrolled_name : String) : RoleAssignment :=
  if 7/10 ≤ enrollment_confidence then
    ⟨"SPEAKER_2", "Patient/Family", some enrolled_name, "voice_enrollment_match"⟩
  else
    ⟨"SPEAKER_1", "Healthcare Provider", none, "unknown_voice_default_provider"⟩

/-! ## Alternating-speaker fallback

Embedding of `RealtimeTranscriptionService._apply_default_speakers` and the
zero-segment branch of `finalize_with_diarization`
(services/realtime_transcription_service.py). -/

/-- Provisional transcript chunk: keys `text` and `translation` (absent key is
read with default `""` by the source, so plain strings suffice). -/
structure Transcript where
  text : String
  translation : String
deriving DecidableEq, Repr

/-- Final segment produced by the reconciler fallback. -/
structure FallbackSegment where
  speaker : String
  speaker_role : String
  text : String
  translation : String
  confidence : ℚ
  method : String
deriving DecidableEq, Repr

/-- Speaker toggling used by the alternating fallback loop. -/
def toggle_speaker (s : String) : String :=
  if s = "SPEAKER_1" then "SPEAKER_2" else "SPEAKER_1"

/-- One fallback segment, as built inside `_apply_default_speakers`. -/
def fallback_segment (sp : String) (t : Transcript) : FallbackSegment :=
  ⟨sp, if sp = "SPEAKER_1" then "Healthcare Provider" else "Patient/Family",
    t.text, t.translation, 1/2, "alternating_fallback"⟩

/-- The loop of `_apply_default_speakers`: the first chunk keeps the current
speaker (`SPEAKER_1` initially), every later chunk toggles first. -/
def alternating_segments : String → List Transcript → List FallbackSegment
  | _, [] => []
  | sp, t :: ts => fallback_segment sp t :: alternating_segments (toggle_speaker sp) ts

/-- Result shape of `finalize_with_diarization` / `_apply_default_speakers`. -/
structure FinalizeResult where
  success : Bool
  segments : List FallbackSegment
  method : String
deriving DecidableEq, Repr

/-- Source `_apply_default_speakers`: alternating speakers starting from `SPEAKER_1`. -/
def apply_default_speakers (ts : List Transcript) : FinalizeResult :=
  ⟨true, alternating_segments "SPEAKER_1" ts, "alternating_fallback"⟩

/-- Source `finalize_with_diarization`, branch structure only: when the external
diarization pass returns zero segments the provisional transcripts are
converted by `apply_default_speakers`; otherwise the diarized segments are
enhanced with enrollment matching (the enhancement is a parameter here, since
that branch is driven by external audio processing). -/
def finalize_with_diarization (enhance : List Transcript → List FallbackSegment)
    (diarized : List Transcript) (transcripts : List Transcript) : FinalizeResult :=
  if diarized = [] then apply_default_speakers transcripts
  else ⟨true, enhance diarized, "post_recording_diarization"⟩

/-! ## Diarization result parser

Embedding of `CloudSpeakerService._parse_speaker_segments` and
`CloudSpeakerService._parse_words_to_segments` (services/cloud_speaker_service.py).
Optional dictionary keys are modelled with `Option`; a key read with default
`""` is modelled as a plain string. -/

/-- Python `str.strip()` on the character list: drop whitespace from both ends. -/
def strip_chars (cs : List Char) : List Char :=
  ((cs.dropWhile Char.isWhitespace).reverse.dropWhile Char.isWhitespace).reverse

/-- Python `str.strip()`. -/
def py_strip (s : String) : String := ⟨strip_chars s.data⟩

/-- Utterance entry of a diarization response. -/
structure Utterance where
  speaker : Option String
  text : String
  start : Option ℚ
  stop : Option ℚ
  confidence : Option ℚ
deriving DecidableEq, Repr

/-- Word entry of a diarization response. -/
structure DWord where
  speaker : Option String
  text : Option String
  start : Option ℚ
  stop : Option ℚ
deriving DecidableEq, Repr

/-- Diarization response: the truthiness tests `"utterances" in d and d["utterances"]`
identify a missing key with an empty list, so plain lists suffice. -/
structure TranscriptResult where
  text : String
  utterances : List Utterance
  words : List DWord
deriving DecidableEq, Repr

/-- Parsed conversation segment. -/
structure Segment where
  speaker : String
  text : String
  start_time : ℚ
  end_time : ℚ
  confidence : ℚ
  method : String
deriving DecidableEq, Repr

/-- The speaker-letter mapping `{"A": "1", "B": "2", "C": "3", "D": "4"}` with
default `"1"`. -/
def speaker_mapping (s : String) : String :=
  if s = "A" then "1" else if s = "B" then "2" else if s = "C" then "3"
  else if s = "D" then "4" else "1"

/-- Segment built from one utterance (defaults: start 0 ms, end 1000 ms,
confidence 0.95); timestamps are converted from milliseconds to seconds. -/
def segment_of_utterance (u : Utterance) : Segment :=
  ⟨"SPEAKER_" ++ speaker_mapping (u.speaker.getD "A"), py_strip u.text,
    (u.start.getD 0) / 1000, (u.stop.getD 1000) / 1000,
    u.confidence.getD (19/20), "cloud_diarization"⟩

/-- The utterance loop of `_parse_speaker_segments`: utterances with
whitespace-only text are skipped. -/
def utterance_segments : List Utterance → List Segment
  | [] => []
  | u :: us =>
    if py_strip u.text = "" then utterance_segments us
    else segment_of_utterance u :: utterance_segments us

/-- Raw speaker label of a word entry (default letter `"A"`). -/
def word_speaker_label (w : DWord) : String :=
  "SPEAKER_" ++ speaker_mapping (w.speaker.getD "A")

/-- Segment flushed for one group of consecutive same-speaker words.  The source
computes `(current_start or 0) / 1000` and `(current_end or 1000) / 1000`; by the
time a group is flushed both values are numbers, so the `or` only replaces a
zero end timestamp (falsy in Python) by the 1000 ms default. -/
def flush_word_group (sp : String) (texts : List String) (s e : ℚ) : Segment :=
  ⟨sp, String.intercalate " " texts, s / 1000,
    (if e = 0 then 1000 else e) / 1000, 9/10, "word_level_diarization"⟩

/-- The grouping loop of `_parse_words_to_segments`: a speaker change flushes
the current group and starts a new one. -/
def word_group_loop : String → List String → ℚ → ℚ → List DWord → List Segment
  | sp, texts, s, e, [] => [flush_word_group sp texts s e]
  | sp, texts, s, e, w :: ws =>
    let sp2 := word_speaker_label w
    if sp2 = sp then word_group_loop sp (texts ++ [w.text.getD ""]) s (w.stop.getD e) ws
    else flush_word_group sp texts s e ::
      word_group_loop sp2 [w.text.getD ""] (w.start.getD 0) (w.stop.getD 1000) ws

/-- Source `_parse_words_to_segments`: group consecutive words sharing a mapped label. -/
def parse_words_to_segments (tr : TranscriptResult) : List Segment :=
  match tr.words with
  | [] => []
  | w :: ws => word_group_loop (word_speaker_label w) [w.text.getD ""]
      (w.start.getD 0) (w.stop.getD 1000) ws

/-- Source `_parse_speaker_segments`: empty transcript text short-circuits to no
segments; then utterances, then words, then the single-segment fallback. -/
def parse_speaker_segments (tr : TranscriptResult) : List Segment :=
  if py_strip tr.text = "" then []
  else if tr.utterances ≠ [] then utterance_segments tr.utterances
  else if tr.words ≠ [] then parse_words_to_segments tr
  else [⟨"SPEAKER_1", py_strip tr.text, 0, 30, 4/5, "no_diarization_fallback"⟩]

def ts_c6 : List Transcript := [⟨"one", "mot"⟩, ⟨"two", "hai"⟩, ⟨"three", "ba"⟩]

def scenario_response : TranscriptResult :=
  ⟨"Hello Hi doctor",
   [⟨some "A", "Hello", some 0, some 1000, none⟩,
    ⟨some "B", "Hi doctor", some 1000, some 2000, none⟩], []⟩

def utterances_only_response : TranscriptResult :=
  ⟨"", [⟨some "A", "Hello", some 0, some 1000, none⟩], []⟩

def words_only_response : TranscriptResult :=
  ⟨"", [], [⟨some "A", some "Hi", some 0, some 500⟩]⟩

def words_with_text_response : TranscriptResult :=
  ⟨"Hi", [], [⟨some "A", some "Hi", some 0, some 500⟩]⟩

def text_only_response : TranscriptResult := ⟨"Hello there", [], []⟩

/-! ## Live session manager

Embedding of `LiveSessionManager` (routes/live_translation.py): `add_segment`
with its deferred redaction task `_schedule_segment_cleanup`, and `end_session`.
Timestamps (`started_at`, `last_activity`, `ended_at`) are real-time values with
no behavioural effect on the claims and are omitted.  The summarization
collaborator (`ai_journal_service.generate_medical_journal_entry` plus the
database write) is external and passed as a function: it either returns a
journal with a confidence score, reports failure, or raises. -/

/-- In-memory live segment.  Segments are dictionaries; the raw transcript is
stored under the key `text` (so it is what the websocket handler writes, what
`ai_journal_service` reads, and what `database_service.add_segment` maps to its
`original_text` column).  The keys `raw_text_deleted` and `original_text` are
absent until the redaction task writes them, modelled by `false` / `none`. -/
structure LiveSegment where
  speaker : String
  text : String
  translation : String
  confidence : ℚ
  raw_text_deleted : Bool
  original_text : Option String
deriving DecidableEq, Repr

/-- Per-session state: status string, accumulated segments, journal data. -/
structure SessionData where
  status : String
  speaker_segments : List LiveSegment
  journal_entry : Option String
  confidence_score : Option ℚ
deriving DecidableEq, Repr

/-- The manager's `self.sessions` dictionary. -/
def Sessions : Type := List (String × SessionData)

instance : DecidableEq Sessions := by
  unfold Sessions
  infer_instance

/-- Dictionary lookup `self.sessions[session_id]`. -/
def lookup_session : Sessions → String → Option SessionData
  | [], _ => none
  | (k, d) :: rest, sid => if k = sid then some d else lookup_session rest sid

/-- In-place update of one session entry. -/
def set_session : Sessions → String → SessionData → Sessions
  | [], _, _ => []
  | (k, d) :: rest, sid, d2 =>
    if k = sid then (k, d2) :: rest else (k, d) :: set_session rest sid d2

/-- Source `add_segment`: append the segment when the session exists (a cleanup task
for the new index is scheduled; its later execution is `segment_cleanup`). -/
def add_segment (ss : Sessions) (sid : String) (seg : LiveSegment) : Sessions :=
  match lookup_session ss sid with
  | none => ss
  | some d => set_session ss sid { d with speaker_segments := d.speaker_segments ++ [seg] }

/-- Body of the deferred redaction write: sets `raw_text_deleted` and writes the
privacy marker into the `original_text` key of the segment at the given index. -/
def redact_at : List LiveSegment → ℕ → List LiveSegment
  | [], _ => []
  | s :: rest, 0 =>
    { s with raw_text_deleted := true, original_text := some "[DELETED FOR PRIVACY]" } :: rest
  | s :: rest, n + 1 => s :: redact_at rest n

/-- The deferred cleanup task of `_schedule_segment_cleanup`, as it runs after
its delay: a silent no-op when the session or the segment index is gone. -/
def segment_cleanup (ss : Sessions) (sid : String) (idx : ℕ) : Sessions :=
  match lookup_session ss sid with
  | none => ss
  | some d =>
    if idx < d.speaker_segments.length then
      set_session ss sid { d with speaker_segments := redact_at d.speaker_segments idx }
    else ss

/-- Outcome of the summarization collaborator as observed by `end_session`:
success with a journal and confidence, a reported failure, or an exception. -/
inductive SummarizeOutcome where
  | ok (journal : String) (conf : ℚ)
  | failed
  | raised
deriving DecidableEq, Repr

/-- Result dictionary returned by `end_session` (success flag and error text). -/
structure EndResult where
  success : Bool
  error : Option String
deriving DecidableEq, Repr

/-- Source `end_session`: reject only an unknown `session_id`; otherwise set status to
`processing_journal`, invoke the summarization collaborator on the session's
segments, and on success store the journal, mark `completed` and purge the raw
segment list; on reported failure mark `journal_failed`; on an exception mark
`error`.  The third component records whether the collaborator was invoked. -/
def end_session (summarize : List LiveSegment → SummarizeOutcome)
    (ss : Sessions) (sid : String) : Sessions × EndResult × Bool :=
  match lookup_session ss sid with
  | none => (ss, ⟨false, some "Session not found"⟩, false)
  | some d =>
    let d1 : SessionData := { d with status := "processing_journal" }
    match summarize d1.speaker_segments with
    | SummarizeOutcome.ok j conf =>
      (set_session ss sid
        { d1 with
            status := "completed"
            journal_entry := some j
            confidence_score := some conf
            speaker_segments := [] },
       ⟨true, none⟩, true)
    | SummarizeOutcome.failed =>
      (set_session ss sid { d1 with status := "journal_failed" },
       ⟨false, some "Failed to generate journal entry"⟩, true)
    | SummarizeOutcome.raised =>
      (set_session ss sid { d1 with status := "error" },
       ⟨false, some "Journal generation error"⟩, true)

def seg_c1 : LiveSegment := ⟨"SPEAKER_1", "hello", "xin chao", 9/10, false, none⟩

def sessions_c1 : Sessions := [("sid-1", ⟨"active", [seg_c1], none, none⟩)]

def ok_summarizer : List LiveSegment → SummarizeOutcome :=
  fun _ => SummarizeOutcome.ok "journal" (9/10)

/-! ## Claim C5: deferred redaction task -/

def sessions_c5 : Sessions := [("sid-1", ⟨"active", [], none, none⟩)]

/-! ## Voice similarity and enrolled-speaker matching

Embedding of `cosine_similarity_simple`, `VoiceEnrollmentService._calculate_voice_similarity`
and `VoiceEnrollmentService.identify_enrolled_speaker`
(services/voice_enrollment_service.py).  A float of the form `a / sqrt b`
(cosine similarity divides a dot product by a product of Euclidean norms) is
represented exactly as the pair `⟨a, b⟩`; the comparisons the code performs on
such values become rational comparisons on squares, valid because every value
the matcher compares is clamped (numerator nonnegative, denominator positive)
and `x ↦ x ^ 2` is monotone on nonnegative reals. -/

/-- Exact representation of the float value `num / sqrt den`. -/
structure SimVal where
  num : ℚ
  den : ℚ
deriving DecidableEq, Repr

/-- The float `0.0` (`best_similarity`'s initial value and all error returns). -/
def simZero : SimVal := ⟨0, 1⟩

/-- Comparison `num / sqrt den ≥ t` for a clamped value and a threshold
`t ≥ 0`, decided on squares. -/
def simGE (s : SimVal) (t : ℚ) : Bool := decide (t ^ 2 * s.den ≤ s.num ^ 2)

/-- Comparison `s > s2` between two clamped values, decided on squares. -/
def simGT (s s2 : SimVal) : Bool := decide (s2.num ^ 2 * s.den < s.num ^ 2 * s2.den)

/-- Translation of `np.dot` on flat vectors (a length mismatch is out of scope: all embeddings
produced by the fixed-schema extractor have the same dimension). -/
def dot_product (a b : List ℚ) : ℚ := (List.zipWith (fun x y => x * y) a b).sum

/-- Squared Euclidean norm; `np.linalg.norm(a)` is zero exactly when this is. -/
def sum_sq (a : List ℚ) : ℚ := dot_product a a

/-- Source `cosine_similarity_simple`: zero when either norm vanishes, else
`dot / (norm1 * norm2)`, represented as `⟨dot, sum_sq a * sum_sq b⟩` since
`sqrt (sum_sq a) * sqrt (sum_sq b) = sqrt (sum_sq a * sum_sq b)`. -/
def cosine_similarity_simple (a b : List ℚ) : SimVal :=
  if sum_sq a = 0 ∨ sum_sq b = 0 then simZero
  else ⟨dot_product a b, sum_sq a * sum_sq b⟩

/-- The decrypted profile fields used by the matcher. -/
structure VoiceProfile where
  speaker_name : String
  mean_embedding : List ℚ
  quality_score : ℚ
  consistency_score : ℚ
deriving DecidableEq, Repr

/-- The clamp `max(0.0, min(1.0, x))` on a represented value `num / sqrt den`
with positive `den`: nonpositive numerator clamps to 0, `num ^ 2 ≥ den` means
the value is at least 1 and clamps to 1. -/
def clamp01 (s : SimVal) : SimVal :=
  if s.num ≤ 0 then simZero
  else if s.den ≤ s.num ^ 2 then ⟨1, 1⟩
  else s

/-- Source `_calculate_voice_similarity`: cosine against the profile mean, weighted by
the profile's quality and consistency scores, clamped to [0, 1]. -/
def calculate_voice_similarity (e : List ℚ) (p : VoiceProfile) : SimVal :=
  let c := cosine_similarity_simple e p.mean_embedding
  clamp01 ⟨c.num * p.quality_score * p.consistency_score, c.den⟩

/-- The profile loop of `identify_enrolled_speaker`: the running best is
replaced when a profile's similarity strictly exceeds it and meets
`enrollment_threshold = 0.80`. -/
def identify_loop (e : List ℚ) :
    List VoiceProfile → Option String × SimVal → Option String × SimVal
  | [], best => best
  | p :: ps, (bn, bs) =>
    let s := calculate_voice_similarity e p
    if simGT s bs && simGE s (4/5) then identify_loop e ps (some p.speaker_name, s)
    else identify_loop e ps (bn, bs)

/-- Source `identify_enrolled_speaker`, as a function of the embedding extracted from
the audio (`none` models an unloadable audio input or a failed feature
extraction, which the source maps to `(None, 0.0)`) and the decrypted enrolled
profiles. -/
def identify_enrolled_speaker (emb : Option (List ℚ)) (profiles : List VoiceProfile) :
    Option String × SimVal :=
  match emb with
  | none => (none, simZero)
  | some e =>
    if profiles = [] then (none, simZero)
    else identify_loop e profiles (none, simZero)

/-- First element attaining the maximum for a strict comparison `gt` (a later
element only displaces the current choice when strictly greater). -/
def argmax_first {α : Type} (gt : α → α → Bool) : List α → Option α
  | [] => none
  | a :: as =>
    match argmax_first gt as with
    | none => some a
    | some b => if gt b a then some b else some a

/-- The matcher as the specification words it: among the profiles whose
weighted similarity meets the accept threshold `t`, return the first-registered
profile attaining the maximum similarity (list order breaks ties); return no
match, with similarity 0, when no profile qualifies. -/
def match_spec (t : ℚ) (profiles : List VoiceProfile) (e : List ℚ) :
    Option String × SimVal :=
  match argmax_first
      (fun p q => simGT (calculate_voice_similarity e p) (calculate_voice_similarity e q))
      (profiles.filter (fun p => simGE (calculate_voice_similarity e p) t)) with
  | some p => (some p.speaker_name, calculate_voice_similarity e p)
  | none => (none, simZero)

/-- Canonical shape of a clamped similarity value: it represents a real number
in [0, 1]. -/
def sim_canon (s : SimVal) : Prop := 0 ≤ s.num ∧ 0 < s.den ∧ s.num ^ 2 ≤ s.den

/-- Rational key ordering the represented values: for positive denominators,
`num1 / sqrt den1 < num2 / sqrt den2` between nonnegative values is equivalent
to `sim_key` comparison. -/
def sim_key (s : SimVal) : ℚ := s.num ^ 2 / s.den

def emb_c2 : List ℚ := [1]

def profile_c2 : VoiceProfile := ⟨"mom", [1], 3/4, 1⟩

def profile_c10 : VoiceProfile := ⟨"mom", [1], 1, 1⟩

/-! ## Enrollment embedding extraction

Embedding of `VoiceEnrollmentService._extract_multiple_embeddings`,
`_validate_audio_quality`, the energy gate of `_extract_voice_features` and the
success shape of `enroll_family_voice` (services/voice_enrollment_service.py).
Audio is a list of samples at the fixed target rate 16000 Hz.  Square-root
comparisons against constants are decided on squares (`sqrt m < c ↔ m < c ^ 2`
for `m, c ≥ 0`).  The DSP producing the 37-dimensional feature vector inside
`_extract_voice_features` (librosa MFCC, pitch, spectral and zero-crossing
statistics) is an external library and is passed as a function `dsp`; the
per-window energy gate `np.mean(librosa.feature.rms(y=segment)) < 0.01` is
modelled from the spec: the AudioFeatureExtractor returns no signal when the
root-mean-square energy of the window is below the noise floor (0.01 in the
source). -/

/-- Mean of squared samples; the RMS energy of the source is its square root. -/
def mean_sq (xs : List ℚ) : ℚ := sum_sq xs / xs.length

/-- Clip duration in seconds at the fixed 16000 Hz target rate. -/
def audio_duration (xs : List ℚ) : ℚ := xs.length / 16000

/-- Source `_validate_audio_quality`: valid iff duration is at least 15 s and the RMS
energy `sqrt (mean_sq xs)` is at least the 0.001 floor, i.e.
`mean_sq xs ≥ 0.001 ^ 2`. -/
def audio_quality_ok (xs : List ℚ) : Bool :=
  decide (15 ≤ audio_duration xs) && decide ((1/1000 : ℚ) ^ 2 ≤ mean_sq xs)

/-- Window start times of `range(0, int(total_duration - 3.0), 2)` in seconds
(`total_duration = n / 16000`; truncation and natural subtraction agree on the
empty-range cases). -/
def window_starts (n : ℕ) : List ℕ :=
  (List.range ((n / 16000 - 3 + 1) / 2)).map (fun i => 2 * i)

/-- The 3-second sample window starting at second `s`. -/
def window_slice (xs : List ℚ) (s : ℕ) : List ℚ := (xs.drop (s * 16000)).take 48000

/-- Source `_extract_voice_features`: no signal when the window RMS is below the 0.01
noise floor (`mean_sq seg < 0.01 ^ 2`), else the external 37-dimensional
feature vector. -/
def extract_voice_features (dsp : List ℚ → List ℚ) (seg : List ℚ) : Option (List ℚ) :=
  if mean_sq seg < (1/100 : ℚ) ^ 2 then none else some (dsp seg)

/-- Source `_extract_multiple_embeddings`: empty audio or invalid quality yields no
embeddings; otherwise one embedding per passing 3-second window at 2-second
stride, and fewer than 5 successful windows yields no embeddings. -/
def extract_multiple_embeddings (dsp : List ℚ → List ℚ) (xs : List ℚ) : List (List ℚ) :=
  if xs.length = 0 then []
  else if audio_quality_ok xs = false then []
  else
    let embs := (window_starts xs.length).filterMap
      (fun s => extract_voice_features dsp (window_slice xs s))
    if 5 ≤ embs.length then embs else []

/-- Source `enroll_family_voice`, success shape: enrollment succeeds exactly when the
embedding list is non-empty, and the stored profile is built from that list by
`_create_voice_profile` (`sample_count` is its length; the score formulas
appear in the theorem statements below). -/
def enroll_family_voice (dsp : List ℚ → List ℚ) (xs : List ℚ) : Option (List (List ℚ)) :=
  match extract_multiple_embeddings dsp xs with
  | [] => none
  | es => some es

/-- Embedding dimension used by the `np.stack`-based aggregation. -/
def emb_dim (es : List (List ℚ)) : ℕ := (es.headD []).length

/-- Component `j` of `np.mean(embedding_matrix, axis=0)`. -/
def mean_comp (es : List (List ℚ)) (j : ℕ) : ℚ :=
  (es.map (fun v => v.getD j 0)).sum / es.length

/-- Field `mean_embedding` of `_create_voice_profile`. -/
def mean_embedding_of (es : List (List ℚ)) : List ℚ :=
  (List.range (emb_dim es)).map (mean_comp es)

/-- Component `j` of the squared `np.std(embedding_matrix, axis=0)`; the std
itself is its square root. -/
def var_comp (es : List (List ℚ)) (j : ℕ) : ℚ :=
  (es.map (fun v => (v.getD j 0 - mean_comp es j) ^ 2)).sum / es.length

/-- Translation of `np.mean(np.abs(mean_embedding))`. -/
def mean_abs_mean (es : List (List ℚ)) : ℚ :=
  ((mean_embedding_of es).map (fun x => |x|)).sum / emb_dim es

/-- Stand-in for the external librosa feature vector (a fixed 37-dimensional
result).  Both C4 facts below depend only on the per-window energy gate and on
list lengths, never on the feature values. -/
def dsp0 : List ℚ → List ℚ := fun _ => List.replicate 37 0

def quiet_audio : List ℚ := List.replicate 256000 (1/200)

def loud_audio : List ℚ := List.replicate 240000 (1/10)

/-! ## Theorems and supporting lemmas -/

/-! ## Claim C3: role resolver boundary -/

/-- C3: a segment entering the role resolver gets Patient/Family, `SPEAKER_2`
and method `voice_enrollment_match` exactly when its enrollment confidence is
at least 0.70 (the boundary value included); any confidence below 0.70 gives
Healthcare Provider, `SPEAKER_1` and method `unknown_voice_default_provider`. -/
theorem role_resolver_boundary (c : ℚ) (name : String) :
    (7/10 ≤ c → assign_speaker_role c name =
      ⟨"SPEAKER_2", "Patient/Family", some name, "voice_enrollment_match"⟩) ∧
    (c < 7/10 → assign_speaker_role c name =
      ⟨"SPEAKER_1", "Healthcare Provider", none, "unknown_voice_default_provider"⟩) := by
  constructor
  · intro h
    simp [assign_speaker_role, h]
  · intro h
    simp [assign_speaker_role, not_le.2 h]

/-- Witness for C3 at the boundary: confidence exactly 0.70 resolves to
`SPEAKER_2`, confidence 0.6999 resolves to `SPEAKER_1`. -/
theorem role_resolver_boundary_witness :
    ((7/10 : ℚ) ≤ 7/10 ∧ assign_speaker_role (7/10) "kris" =
      ⟨"SPEAKER_2", "Patient/Family", some "kris", "voice_enrollment_match"⟩) ∧
    ((6999/10000 : ℚ) < 7/10 ∧ assign_speaker_role (6999/10000) "kris" =
      ⟨"SPEAKER_1", "Healthcare Provider", none, "unknown_voice_default_provider"⟩) :=
  ⟨⟨by norm_num, (role_resolver_boundary (7/10) "kris").1 (by norm_num)⟩,
   ⟨by norm_num, (role_resolver_boundary (6999/10000) "kris").2 (by norm_num)⟩⟩

/-! ## Claim C6: alternating fallback -/

lemma alternating_segments_length (ts : List Transcript) :
    ∀ sp, (alternating_segments sp ts).length = ts.length := by
  induction ts with
  | nil => intro sp; rfl
  | cons t ts ih => intro sp; simp [alternating_segments, ih]

lemma range_parity_shift (n : ℕ) (a b : String) :
    (List.range n).map (fun i => if (i + 1) % 2 = 0 then a else b) =
      (List.range n).map (fun i => if i % 2 = 0 then b else a) := by
  apply List.map_congr_left
  intro i _
  rcases Nat.mod_two_eq_zero_or_one i with h | h
  · have h2 : (i + 1) % 2 = 1 := by omega
    simp [h, h2]
  · have h2 : (i + 1) % 2 = 0 := by omega
    simp [h, h2]

lemma alternating_segments_speakers (ts : List Transcript) :
    ((alternating_segments "SPEAKER_1" ts).map (fun s => s.speaker) =
      (List.range ts.length).map (fun i => if i % 2 = 0 then "SPEAKER_1" else "SPEAKER_2")) ∧
    ((alternating_segments "SPEAKER_2" ts).map (fun s => s.speaker) =
      (List.range ts.length).map (fun i => if i % 2 = 0 then "SPEAKER_2" else "SPEAKER_1")) := by
  induction ts with
  | nil => exact ⟨rfl, rfl⟩
  | cons t ts ih =>
    have ht1 : toggle_speaker "SPEAKER_1" = "SPEAKER_2" := by decide
    have ht2 : toggle_speaker "SPEAKER_2" = "SPEAKER_1" := by decide
    constructor
    · simp only [alternating_segments, List.map_cons, List.length_cons,
        List.range_succ_eq_map, List.map_map, ht1, ih.2, List.cons.injEq]
      refine ⟨by simp [fallback_segment], ?_⟩
      have hshift := range_parity_shift ts.length "SPEAKER_1" "SPEAKER_2"
      rw [← hshift]
      apply List.map_congr_left
      intro i _
      simp [Function.comp]
    · simp only [alternating_segments, List.map_cons, List.length_cons,
        List.range_succ_eq_map, List.map_map, ht2, ih.1, List.cons.injEq]
      refine ⟨by simp [fallback_segment], ?_⟩
      have hshift := range_parity_shift ts.length "SPEAKER_2" "SPEAKER_1"
      rw [← hshift]
      apply List.map_congr_left
      intro i _
      simp [Function.comp]

lemma alternating_segments_method (ts : List Transcript) :
    ∀ sp, ∀ s ∈ alternating_segments sp ts, s.method = "alternating_fallback" := by
  induction ts with
  | nil =>
    intro sp s hs
    cases hs
  | cons t ts ih =>
    intro sp s hs
    rcases List.mem_cons.1 hs with h | h
    · subst h; rfl
    · exact ih _ s h

/-- C6: when the finalize-time diarization pass yields zero segments, the
reconciler converts the n provisional transcripts into exactly n segments whose
labels alternate `SPEAKER_1`, `SPEAKER_2`, ... starting with `SPEAKER_1`, each
tagged with method `alternating_fallback`; in particular three transcripts get
labels `SPEAKER_1`, `SPEAKER_2`, `SPEAKER_1`. -/
theorem reconciler_alternating_fallback (enhance : List Transcript → List FallbackSegment)
    (ts : List Transcript) :
    (finalize_with_diarization enhance [] ts).segments.length = ts.length ∧
    (finalize_with_diarization enhance [] ts).segments.map (fun s => s.speaker) =
      (List.range ts.length).map (fun i => if i % 2 = 0 then "SPEAKER_1" else "SPEAKER_2") ∧
    (∀ s ∈ (finalize_with_diarization enhance [] ts).segments,
      s.method = "alternating_fallback") ∧
    (∀ t1 t2 t3 : Transcript,
      (finalize_with_diarization enhance [] [t1, t2, t3]).segments.map (fun s => s.speaker) =
        ["SPEAKER_1", "SPEAKER_2", "SPEAKER_1"]) := by
  refine ⟨?_, ?_, ?_, ?_⟩
  · simp [finalize_with_diarization, apply_default_speakers, alternating_segments_length]
  · simp only [finalize_with_diarization, if_pos rfl, apply_default_speakers]
    exact (alternating_segments_speakers ts).1
  · simp only [finalize_with_diarization, if_pos rfl, apply_default_speakers]
    exact alternating_segments_method ts "SPEAKER_1"
  · intro t1 t2 t3
    simp [finalize_with_diarization, apply_default_speakers, alternating_segments,
      fallback_segment, toggle_speaker]

/-- Witness for C6: a concrete session with three provisional transcripts. -/
theorem reconciler_alternating_fallback_witness :
    fallback_segment "SPEAKER_1" ⟨"one", "mot"⟩ ∈
      (finalize_with_diarization (fun _ => []) [] ts_c6).segments ∧
    (fallback_segment "SPEAKER_1" ⟨"one", "mot"⟩).method = "alternating_fallback" ∧
    (finalize_with_diarization (fun _ => []) [] ts_c6).segments.map (fun s => s.speaker) =
      ["SPEAKER_1", "SPEAKER_2", "SPEAKER_1"] :=
  ⟨by
    simp [finalize_with_diarization, apply_default_speakers, alternating_segments, ts_c6],
   (reconciler_alternating_fallback (fun _ => []) ts_c6).2.2.1 _ (by
    simp [finalize_with_diarization, apply_default_speakers, alternating_segments, ts_c6]),
   (reconciler_alternating_fallback (fun _ => []) ts_c6).2.2.2
     ⟨"one", "mot"⟩ ⟨"two", "hai"⟩ ⟨"three", "ba"⟩⟩

/-! ## Claim C7: utterance-level parsing -/

lemma utterance_segments_eq (us : List Utterance) :
    utterance_segments us = (us.filter (fun u => py_strip u.text != "")).map segment_of_utterance := by
  induction us with
  | nil => rfl
  | cons u us ih =>
    by_cases h : py_strip u.text = ""
    · simp [utterance_segments, h, List.filter_cons, ih]
    · simp [utterance_segments, h, List.filter_cons, ih]

lemma scenario_parse :
    parse_speaker_segments scenario_response =
      [⟨"SPEAKER_1", "Hello", 0, 1, 19/20, "cloud_diarization"⟩,
       ⟨"SPEAKER_2", "Hi doctor", 1, 2, 19/20, "cloud_diarization"⟩] := by
  have h1 : ¬ (py_strip scenario_response.text = "") := by decide
  have h2 : scenario_response.utterances ≠ [] := by decide
  unfold parse_speaker_segments
  rw [if_neg h1, if_pos h2, utterance_segments_eq]
  have h3 : scenario_response.utterances.filter (fun u => py_strip u.text != "") =
      scenario_response.utterances := by decide
  rw [h3]
  have e1 : py_strip "Hello" = "Hello" := by decide
  have e2 : py_strip "Hi doctor" = "Hi doctor" := by decide
  have sA : "SPEAKER_" ++ speaker_mapping "A" = "SPEAKER_1" := by decide
  have sB : "SPEAKER_" ++ speaker_mapping "B" = "SPEAKER_2" := by decide
  norm_num [scenario_response, segment_of_utterance, e1, e2, sA, sB]

/-- C7 (amended with the non-empty-transcript-text guard of the parser): for a
response with non-empty aggregate text and non-empty utterances the parser
emits one segment per non-empty utterance, maps speaker letters A,B,C,D to 1-4
(anything else to 1), and converts milliseconds to seconds; the two-utterance
scenario produces `SPEAKER_1 "Hello" 0-1s` and `SPEAKER_2 "Hi doctor" 1-2s`. -/
theorem parser_utterance_path (tr : TranscriptResult)
    (htext : py_strip tr.text ≠ "") (hutt : tr.utterances ≠ []) :
    parse_speaker_segments tr =
      (tr.utterances.filter (fun u => py_strip u.text != "")).map segment_of_utterance ∧
    speaker_mapping "A" = "1" ∧ speaker_mapping "B" = "2" ∧
    speaker_mapping "C" = "3" ∧ speaker_mapping "D" = "4" ∧
    (∀ s : String, s ∉ (["A", "B", "C", "D"] : List String) → speaker_mapping s = "1") ∧
    parse_speaker_segments scenario_response =
      [⟨"SPEAKER_1", "Hello", 0, 1, 19/20, "cloud_diarization"⟩,
       ⟨"SPEAKER_2", "Hi doctor", 1, 2, 19/20, "cloud_diarization"⟩] := by
  refine ⟨?_, by decide, by decide, by decide, by decide, ?_, scenario_parse⟩
  · simp [parse_speaker_segments, htext, hutt, utterance_segments_eq]
  · intro s hs
    simp only [List.mem_cons, not_or, List.not_mem_nil] at hs
    obtain ⟨h1, h2, h3, h4, -⟩ := hs
    simp [speaker_mapping, h1, h2, h3, h4]

/-- Counterexample to C7 as stated: a response whose aggregate text is empty
but whose utterance list is non-empty is parsed to no segments at all, because
the parser short-circuits on empty transcript text before looking at
utterances. -/
theorem parser_utterance_path_counterexample :
    utterances_only_response.utterances ≠ [] ∧
    (utterances_only_response.utterances.filter (fun u => py_strip u.text != "")) ≠ [] ∧
    parse_speaker_segments utterances_only_response = [] := by
  decide

/-- Witness for C7 at the scenario response. -/
theorem parser_utterance_path_witness :
    py_strip scenario_response.text ≠ "" ∧ scenario_response.utterances ≠ [] ∧
    parse_speaker_segments scenario_response =
      [⟨"SPEAKER_1", "Hello", 0, 1, 19/20, "cloud_diarization"⟩,
       ⟨"SPEAKER_2", "Hi doctor", 1, 2, 19/20, "cloud_diarization"⟩] :=
  ⟨by decide, by decide,
   (parser_utterance_path scenario_response (by decide) (by decide)).2.2.2.2.2.2⟩

/-! ## Claim C8: parser fallback chain -/

/-- C8 (amended with the non-empty-transcript-text guard of the parser): for a
response with non-empty aggregate text, empty utterances and populated words,
the parser output equals the direct word-grouping routine's output on the same
response; with neither utterances nor words it is the single full-span
`SPEAKER_1` segment tagged `no_diarization_fallback`; and a response with no
text at all always yields the empty sequence. -/
theorem parser_fallback_refinement (tr : TranscriptResult) :
    (py_strip tr.text ≠ "" → tr.utterances = [] → tr.words ≠ [] →
      parse_speaker_segments tr = parse_words_to_segments tr) ∧
    (py_strip tr.text ≠ "" → tr.utterances = [] → tr.words = [] →
      parse_speaker_segments tr =
        [⟨"SPEAKER_1", py_strip tr.text, 0, 30, 4/5, "no_diarization_fallback"⟩]) ∧
    (py_strip tr.text = "" → parse_speaker_segments tr = []) := by
  refine ⟨?_, ?_, ?_⟩
  · intro h1 h2 h3
    simp [parse_speaker_segments, h1, h2, h3]
  · intro h1 h2 h3
    simp [parse_speaker_segments, h1, h2, h3]
  · intro h1
    simp [parse_speaker_segments, h1]

lemma words_only_parse_words :
    parse_words_to_segments words_only_response =
      [⟨"SPEAKER_1", "Hi", 0, 1/2, 9/10, "word_level_diarization"⟩] := by
  have eA : word_speaker_label ⟨some "A", some "Hi", some 0, some 500⟩ = "SPEAKER_1" := by decide
  have eI : String.intercalate " " ["Hi"] = "Hi" := by decide
  norm_num [parse_words_to_segments, words_only_response, word_group_loop, flush_word_group, eA, eI]

/-- Counterexample to C8 as stated: a response with empty aggregate text but
populated words is parsed to no segments, while the direct word-grouping
routine applied to the same response produces one segment, so the two differ. -/
theorem parser_fallback_refinement_counterexample :
    words_only_response.utterances = [] ∧ words_only_response.words ≠ [] ∧
    parse_speaker_segments words_only_response = [] ∧
    parse_words_to_segments words_only_response =
      [⟨"SPEAKER_1", "Hi", 0, 1/2, 9/10, "word_level_diarization"⟩] ∧
    parse_speaker_segments words_only_response ≠ parse_words_to_segments words_only_response := by
  have hempty : parse_speaker_segments words_only_response = [] := by
    have h : py_strip words_only_response.text = "" := by decide
    simp [parse_speaker_segments, h]
  refine ⟨by decide, by decide, hempty, words_only_parse_words, ?_⟩
  rw [hempty, words_only_parse_words]
  simp

/-- Witness for C8 on concrete responses for both fallback tiers. -/
theorem parser_fallback_refinement_witness :
    (py_strip words_with_text_response.text ≠ "" ∧
      parse_speaker_segments words_with_text_response =
        parse_words_to_segments words_with_text_response) ∧
    parse_speaker_segments text_only_response =
      [⟨"SPEAKER_1", "Hello there", 0, 30, 4/5, "no_diarization_fallback"⟩] :=
  ⟨⟨by decide,
    (parser_fallback_refinement words_with_text_response).1 (by decide) (by decide) (by decide)⟩,
   by
    have h := (parser_fallback_refinement text_only_response).2.1 (by decide) (by decide) (by decide)
    have e : py_strip text_only_response.text = "Hello there" := by decide
    rw [e] at h
    exact h⟩

/-! ## Claim C1: double end_session -/

/-- C1 (amended): `end_session` rejects only an unknown `session_id`, without
invoking the summarization collaborator; whenever the session is still present
in the manager — which includes a session whose first `end_session` call already
completed, since completion leaves the session stored — the call proceeds and
invokes the summarization collaborator (again). -/
theorem end_session_reject_only_unknown (summarize : List LiveSegment → SummarizeOutcome)
    (ss : Sessions) (sid : String) :
    (lookup_session ss sid = none →
      end_session summarize ss sid = (ss, ⟨false, some "Session not found"⟩, false)) ∧
    (∀ d, lookup_session ss sid = some d → (end_session summarize ss sid).2.2 = true) := by
  constructor
  · intro h
    simp [end_session, h]
  · intro d h
    simp only [end_session, h]
    cases summarize ({ d with status := "processing_journal" } : SessionData).speaker_segments <;>
      rfl

/-- Counterexample to C1 as stated: after a successful first `end_session`
(status `completed`, segment list purged), a second call on the same session id
is not rejected — it reports success rather than an error and invokes the
summarization collaborator a second time. -/
theorem end_session_second_call_counterexample :
    (end_session ok_summarizer sessions_c1 "sid-1").2.1.success = true ∧
    (lookup_session (end_session ok_summarizer sessions_c1 "sid-1").1 "sid-1").map
      (fun d => d.status) = some "completed" ∧
    (lookup_session (end_session ok_summarizer sessions_c1 "sid-1").1 "sid-1").map
      (fun d => d.speaker_segments) = some [] ∧
    (end_session ok_summarizer (end_session ok_summarizer sessions_c1 "sid-1").1 "sid-1").2.2
      = true ∧
    (end_session ok_summarizer (end_session ok_summarizer sessions_c1 "sid-1").1 "sid-1").2.1
      = ⟨true, none⟩ := by
  refine ⟨rfl, rfl, rfl, rfl, rfl⟩

/-- Witness for C1: the unknown-id rejection at an empty manager, and a second
call on a stored completed session invoking summarization again. -/
theorem end_session_reject_only_unknown_witness :
    end_session ok_summarizer ([] : Sessions) "sid-1" =
      (([] : Sessions), ⟨false, some "Session not found"⟩, false) ∧
    (end_session ok_summarizer (end_session ok_summarizer sessions_c1 "sid-1").1 "sid-1").2.2
      = true :=
  ⟨(end_session_reject_only_unknown ok_summarizer ([] : Sessions) "sid-1").1 rfl,
   (end_session_reject_only_unknown ok_summarizer
      (end_session ok_summarizer sessions_c1 "sid-1").1 "sid-1").2
     ⟨"completed", [], some "journal", some (9/10)⟩ rfl⟩

/-- C5 is a code bug: the deferred task leaves the raw transcript intact.
Evaluation of the code at the failing input: after `add_segment` appends a
segment whose raw text lives under the `text` key and the scheduled cleanup
fires for index 0, the segment's `text` is still the raw transcript `"hello"`;
the task only adds `raw_text_deleted = true` and writes the privacy marker into
the separate `original_text` key, while speaker, translation and confidence are
untouched; and the task is a silent no-op for a missing session id or a missing
segment index. -/
theorem segment_cleanup_leaves_raw_text :
    (lookup_session
        (segment_cleanup (add_segment sessions_c5 "sid-1" seg_c1) "sid-1" 0) "sid-1").map
      (fun d => d.speaker_segments) =
      some [⟨"SPEAKER_1", "hello", "xin chao", 9/10, true, some "[DELETED FOR PRIVACY]"⟩] ∧
    segment_cleanup (add_segment sessions_c5 "sid-1" seg_c1) "missing" 0 =
      add_segment sessions_c5 "sid-1" seg_c1 ∧
    segment_cleanup (add_segment sessions_c5 "sid-1" seg_c1) "sid-1" 5 =
      add_segment sessions_c5 "sid-1" seg_c1 := by
  refine ⟨rfl, rfl, rfl⟩

lemma zip_self_eq_map_sq (a : List ℚ) :
    List.zipWith (fun x y => x * y) a a = a.map (fun x => x * x) := by
  induction a with
  | nil => rfl
  | cons x xs ih => simp [ih]

lemma sum_sq_nonneg (a : List ℚ) : 0 ≤ sum_sq a := by
  unfold sum_sq dot_product
  rw [zip_self_eq_map_sq]
  apply List.sum_nonneg
  intro x hx
  rcases List.mem_map.1 hx with ⟨y, -, rfl⟩
  exact mul_self_nonneg y

lemma clamp01_canon (s : SimVal) : sim_canon (clamp01 s) := by
  unfold clamp01 sim_canon simZero
  split_ifs with h1 h2
  · norm_num
  · norm_num
  · have h1' : 0 < s.num := not_le.1 h1
    have h2' : s.num ^ 2 < s.den := not_le.1 h2
    exact ⟨h1'.le, lt_trans (pow_pos h1' 2) h2', h2'.le⟩

lemma calc_canon (e : List ℚ) (p : VoiceProfile) :
    sim_canon (calculate_voice_similarity e p) := clamp01_canon _

lemma simGT_iff (a b : SimVal) (ha : 0 < a.den) (hb : 0 < b.den) :
    simGT a b = true ↔ sim_key b < sim_key a := by
  unfold simGT sim_key
  rw [decide_eq_true_eq, div_lt_div_iff hb ha]

lemma simGT_false_iff (a b : SimVal) (ha : 0 < a.den) (hb : 0 < b.den) :
    simGT a b = false ↔ sim_key a ≤ sim_key b := by
  rw [← Bool.not_eq_true, not_iff_comm, simGT_iff a b ha hb, not_le]

lemma simGE_iff (s : SimVal) (t : ℚ) (h : 0 < s.den) :
    simGE s t = true ↔ t ^ 2 ≤ sim_key s := by
  unfold simGE sim_key
  rw [decide_eq_true_eq, le_div_iff h]

lemma simZero_den_pos : (0:ℚ) < simZero.den := by norm_num [simZero]

lemma sim_key_simZero : sim_key simZero = 0 := by norm_num [sim_key, simZero]

lemma argmax_first_mem {α : Type} (gt : α → α → Bool) :
    ∀ (l : List α) (r : α), argmax_first gt l = some r → r ∈ l := by
  intro l
  induction l with
  | nil => intro r h; cases h
  | cons a as ih =>
    intro r h
    rcases hm : argmax_first gt as with - | b
    · simp only [argmax_first, hm] at h
      cases h
      exact List.mem_cons_self a as
    · by_cases hg : gt b a = true
      · simp only [argmax_first, hm, if_pos hg] at h
        cases h
        exact List.mem_cons_of_mem a (ih _ hm)
      · simp only [argmax_first, hm, if_neg hg] at h
        cases h
        exact List.mem_cons_self a as

lemma argmax_first_eq_none {α : Type} (gt : α → α → Bool) :
    ∀ (l : List α), argmax_first gt l = none ↔ l = [] := by
  intro l
  cases l with
  | nil => simp [argmax_first]
  | cons a as =>
    constructor
    · intro h
      exfalso
      rcases hm : argmax_first gt as with - | b
      · simp only [argmax_first, hm] at h
        cases h
      · by_cases hg : gt b a = true
        · simp only [argmax_first, hm, if_pos hg] at h
          cases h
        · simp only [argmax_first, hm, if_neg hg] at h
          cases h
    · intro h
      cases h

/-- Weakening a filter under a dominance hypothesis: if every element passing
the stronger filter `P` passes `Q` and strictly beats every `Q`-but-not-`P`
element, then the first maximum over the `P`-filtered list is also the first
maximum over the `Q`-filtered list. -/
lemma argmax_first_filter_strengthen {α : Type} (gt : α → α → Bool) (P Q : α → Bool) :
    ∀ (l : List α),
    (∀ x ∈ l, P x = true → Q x = true) →
    (∀ x ∈ l, ∀ y ∈ l, Q x = true → P x = false → P y = true →
      gt y x = true ∧ gt x y = false) →
    ∀ r, argmax_first gt (l.filter P) = some r → argmax_first gt (l.filter Q) = some r := by
  intro l
  induction l with
  | nil =>
    intro _ _ r h
    cases h
  | cons a as ih =>
    intro hPQ hdom r h
    have hPQ' : ∀ x ∈ as, P x = true → Q x = true :=
      fun x hx => hPQ x (List.mem_cons_of_mem a hx)
    have hdom' : ∀ x ∈ as, ∀ y ∈ as, Q x = true → P x = false → P y = true →
        gt y x = true ∧ gt x y = false :=
      fun x hx y hy =>
        hdom x (List.mem_cons_of_mem a hx) y (List.mem_cons_of_mem a hy)
    by_cases hPa : P a = true
    · have hQa : Q a = true := hPQ a (List.mem_cons_self a as) hPa
      rw [List.filter_cons_of_pos hPa] at h
      rw [List.filter_cons_of_pos hQa]
      rcases hmP : argmax_first gt (as.filter P) with - | b
      · -- no element of the tail passes P; the head is chosen on both sides
        have hnil : as.filter P = [] := (argmax_first_eq_none gt _).1 hmP
        have hallP : ∀ y ∈ as, P y = false := by
          intro y hy
          by_cases hPy : P y = true
          · exact absurd (List.mem_filter.2 ⟨hy, hPy⟩) (by rw [hnil]; exact List.not_mem_nil y)
          · exact Bool.not_eq_true _ ▸ eq_false_of_ne_true hPy
        simp only [argmax_first, hmP] at h
        cases h
        rcases hmQ : argmax_first gt (as.filter Q) with - | b
        · simp only [argmax_first, hmQ]
        · have hbmem := argmax_first_mem gt _ _ hmQ
          have hbin : b ∈ as := (List.mem_filter.1 hbmem).1
          have hbQ : Q b = true := (List.mem_filter.1 hbmem).2
          have hgt := (hdom b (List.mem_cons_of_mem a hbin) a (List.mem_cons_self a as)
            hbQ (hallP b hbin) hPa).2
          simp only [argmax_first, hmQ, hgt, Bool.false_eq_true, if_false]
      · have hQb := ih hPQ' hdom' b hmP
        simp only [argmax_first, hmP] at h
        simp only [argmax_first, hQb]
        exact h
    · have hPa' : P a = false := eq_false_of_ne_true hPa
      rw [List.filter_cons_of_neg (by rw [hPa']; exact Bool.false_ne_true)] at h
      have hQr := ih hPQ' hdom' r h
      have hrmem := argmax_first_mem gt _ _ h
      have hrin : r ∈ as := (List.mem_filter.1 hrmem).1
      have hrP : P r = true := (List.mem_filter.1 hrmem).2
      by_cases hQa : Q a = true
      · rw [List.filter_cons_of_pos hQa]
        have hga := (hdom a (List.mem_cons_self a as) r (List.mem_cons_of_mem a hrin)
          hQa hPa' hrP).1
        simp only [argmax_first, hQr, hga, if_true]
      · rw [List.filter_cons_of_neg (by rw [eq_false_of_ne_true hQa]; exact Bool.false_ne_true)]
        exact hQr

lemma band_eq_true (a b : Bool) : (a && b) = true ↔ a = true ∧ b = true := by
  simp

/-- Generalized accumulator characterization of the matcher loop: starting from
any best value with positive denominator, the loop returns the first-maximum
qualifying profile that strictly beats the accumulator, or the accumulator
itself when none does. -/
lemma identify_loop_spec (e : List ℚ) :
    ∀ (ps : List VoiceProfile) (bn : Option String) (bs : SimVal), 0 < bs.den →
    identify_loop e ps (bn, bs) =
      (match argmax_first
          (fun p q => simGT (calculate_voice_similarity e p) (calculate_voice_similarity e q))
          (ps.filter (fun p => simGT (calculate_voice_similarity e p) bs &&
            simGE (calculate_voice_similarity e p) (4/5))) with
      | some r => (some r.speaker_name, calculate_voice_similarity e r)
      | none => (bn, bs)) := by
  intro ps
  induction ps with
  | nil =>
    intro bn bs hbs
    rfl
  | cons p ps ih =>
    intro bn bs hbs
    have hdenp : ∀ q : VoiceProfile, 0 < (calculate_voice_similarity e q).den :=
      fun q => (calc_canon e q).2.1
    by_cases hcond : (simGT (calculate_voice_similarity e p) bs &&
        simGE (calculate_voice_similarity e p) (4/5)) = true
    · obtain ⟨hGT, hGE⟩ := (band_eq_true _ _).1 hcond
      have hkey_p : sim_key bs < sim_key (calculate_voice_similarity e p) :=
        (simGT_iff _ _ (hdenp p) hbs).1 hGT
      have hstep : identify_loop e (p :: ps) (bn, bs) =
          identify_loop e ps (some p.speaker_name, calculate_voice_similarity e p) := by
        simp only [identify_loop]
        rw [if_pos hcond]
      rw [hstep, ih (some p.speaker_name) _ (hdenp p)]
      have hPQ : ∀ x ∈ ps,
          (simGT (calculate_voice_similarity e x) (calculate_voice_similarity e p) &&
            simGE (calculate_voice_similarity e x) (4/5)) = true →
          (simGT (calculate_voice_similarity e x) bs &&
            simGE (calculate_voice_similarity e x) (4/5)) = true := by
        intro x _ hPx
        obtain ⟨hx1, hx2⟩ := (band_eq_true _ _).1 hPx
        have h1 : sim_key (calculate_voice_similarity e p) <
            sim_key (calculate_voice_similarity e x) :=
          (simGT_iff _ _ (hdenp x) (hdenp p)).1 hx1
        rw [band_eq_true]
        exact ⟨(simGT_iff _ _ (hdenp x) hbs).2 (lt_trans hkey_p h1), hx2⟩
      have hdom : ∀ x ∈ ps, ∀ y ∈ ps,
          (simGT (calculate_voice_similarity e x) bs &&
            simGE (calculate_voice_similarity e x) (4/5)) = true →
          (simGT (calculate_voice_similarity e x) (calculate_voice_similarity e p) &&
            simGE (calculate_voice_similarity e x) (4/5)) = false →
          (simGT (calculate_voice_similarity e y) (calculate_voice_similarity e p) &&
            simGE (calculate_voice_similarity e y) (4/5)) = true →
          simGT (calculate_voice_similarity e y) (calculate_voice_similarity e x) = true ∧
          simGT (calculate_voice_similarity e x) (calculate_voice_similarity e y) = false := by
        intro x _ y _ hQx hPx hPy
        obtain ⟨-, hxGE⟩ := (band_eq_true _ _).1 hQx
        obtain ⟨hy1, -⟩ := (band_eq_true _ _).1 hPy
        have hxGTp : simGT (calculate_voice_similarity e x)
            (calculate_voice_similarity e p) = false := by
          cases hA : simGT (calculate_voice_similarity e x) (calculate_voice_similarity e p)
          · rfl
          · rw [hA, hxGE] at hPx
            cases hPx
        have hxle : sim_key (calculate_voice_similarity e x) ≤
            sim_key (calculate_voice_similarity e p) :=
          (simGT_false_iff _ _ (hdenp x) (hdenp p)).1 hxGTp
        have hylt : sim_key (calculate_voice_similarity e p) <
            sim_key (calculate_voice_similarity e y) :=
          (simGT_iff _ _ (hdenp y) (hdenp p)).1 hy1
        constructor
        · exact (simGT_iff _ _ (hdenp y) (hdenp x)).2 (lt_of_le_of_lt hxle hylt)
        · exact (simGT_false_iff _ _ (hdenp x) (hdenp y)).2 (le_of_lt (lt_of_le_of_lt hxle hylt))
      rw [List.filter_cons, if_pos hcond]
      rcases hmP : argmax_first
          (fun p2 q => simGT (calculate_voice_similarity e p2) (calculate_voice_similarity e q))
          (ps.filter (fun x => simGT (calculate_voice_similarity e x)
            (calculate_voice_similarity e p) &&
            simGE (calculate_voice_similarity e x) (4/5))) with - | r
      · have hnil := (argmax_first_eq_none _ _).1 hmP
        have hallP : ∀ y ∈ ps,
            (simGT (calculate_voice_similarity e y) (calculate_voice_similarity e p) &&
              simGE (calculate_voice_similarity e y) (4/5)) = false := by
          intro y hy
          by_cases hPy : (simGT (calculate_voice_similarity e y)
              (calculate_voice_similarity e p) &&
              simGE (calculate_voice_similarity e y) (4/5)) = true
          · exact absurd (List.mem_filter.2 ⟨hy, hPy⟩)
              (by rw [hnil]; exact List.not_mem_nil y)
          · exact eq_false_of_ne_true hPy
        rcases hmQ : argmax_first
            (fun p2 q => simGT (calculate_voice_similarity e p2) (calculate_voice_similarity e q))
            (ps.filter (fun x => simGT (calculate_voice_similarity e x) bs &&
              simGE (calculate_voice_similarity e x) (4/5))) with - | b
        · simp only [argmax_first, hmQ]
        · have hbmem := argmax_first_mem _ _ _ hmQ
          have hbin : b ∈ ps := (List.mem_filter.1 hbmem).1
          have hbQ := (List.mem_filter.1 hbmem).2
          obtain ⟨-, hbGE⟩ := (band_eq_true _ _).1 hbQ
          have hbP := hallP b hbin
          have hbGTp : simGT (calculate_voice_similarity e b)
              (calculate_voice_similarity e p) = false := by
            cases hA : simGT (calculate_voice_similarity e b) (calculate_voice_similarity e p)
            · rfl
            · rw [hA, hbGE] at hbP
              cases hbP
          simp only [argmax_first, hmQ, hbGTp, Bool.false_eq_true, if_false]
      · have hQr := argmax_first_filter_strengthen _ _ _ ps hPQ hdom r hmP
        have hrmem := argmax_first_mem _ _ _ hmP
        have hrP := (List.mem_filter.1 hrmem).2
        obtain ⟨hr1, -⟩ := (band_eq_true _ _).1 hrP
        simp only [argmax_first, hQr, hr1, if_true]
    · have hstep : identify_loop e (p :: ps) (bn, bs) = identify_loop e ps (bn, bs) := by
        simp only [identify_loop]
        rw [if_neg hcond]
      rw [hstep, ih bn bs hbs, List.filter_cons, if_neg hcond]

/-- C2 (amended: the matcher accepts at `enrollment_threshold = 0.80`, not at
0.70): `identify_enrolled_speaker` returns exactly the profile with maximum
weighted similarity among those whose similarity meets the 0.80 threshold,
first-registered profile winning ties, and no match (with similarity 0.0) when
no profile meets 0.80. -/
theorem matcher_uses_enrollment_threshold (e : List ℚ) (profiles : List VoiceProfile) :
    identify_enrolled_speaker (some e) profiles = match_spec (4/5) profiles e := by
  by_cases hp : profiles = []
  · subst hp
    rfl
  · have h1 : identify_enrolled_speaker (some e) profiles =
        identify_loop e profiles (none, simZero) := by
      simp only [identify_enrolled_speaker]
      rw [if_neg hp]
    unfold match_spec
    rw [h1, identify_loop_spec e profiles none simZero simZero_den_pos]
    have hfilter : profiles.filter (fun p => simGT (calculate_voice_similarity e p) simZero &&
        simGE (calculate_voice_similarity e p) (4/5)) =
        profiles.filter (fun p => simGE (calculate_voice_similarity e p) (4/5)) := by
      apply List.filter_congr
      intro p _
      cases hGE : simGE (calculate_voice_similarity e p) (4/5)
      · rw [Bool.and_false]
      · have hden := (calc_canon e p).2.1
        have hGT : simGT (calculate_voice_similarity e p) simZero = true := by
          rw [simGT_iff _ _ hden simZero_den_pos, sim_key_simZero]
          have h1 := (simGE_iff _ _ hden).1 hGE
          have h2 : (0:ℚ) < (4/5:ℚ) ^ 2 := by norm_num
          exact lt_of_lt_of_le h2 h1
        rw [hGT, Bool.true_and]
    rw [hfilter]

lemma calc_c2 : calculate_voice_similarity emb_c2 profile_c2 = ⟨3/4, 1⟩ := by
  norm_num [calculate_voice_similarity, cosine_similarity_simple, clamp01, sum_sq,
    dot_product, emb_c2, profile_c2, simZero]

/-- Counterexample to C2 as stated: a profile whose weighted similarity to the
candidate is 0.75 meets the claimed 0.70 accept threshold, and the claimed
matcher with threshold 0.70 returns it; the code returns no match, because the
matcher compares against `enrollment_threshold = 0.80`. -/
theorem matcher_threshold_counterexample :
    simGE (calculate_voice_similarity emb_c2 profile_c2) (7/10) = true ∧
    match_spec (7/10) [profile_c2] emb_c2 = (some "mom", ⟨3/4, 1⟩) ∧
    identify_enrolled_speaker (some emb_c2) [profile_c2] = (none, simZero) := by
  have hge7 : simGE (calculate_voice_similarity emb_c2 profile_c2) (7/10) = true := by
    rw [calc_c2]
    simp only [simGE, decide_eq_true_eq]
    norm_num
  have hge8 : simGE (calculate_voice_similarity emb_c2 profile_c2) (4/5) = false := by
    rw [calc_c2]
    simp only [simGE, decide_eq_false_iff_not]
    norm_num
  refine ⟨hge7, ?_, ?_⟩
  · unfold match_spec
    have hfil : List.filter
        (fun p => simGE (calculate_voice_similarity emb_c2 p) (7/10)) [profile_c2] =
        [profile_c2] := by
      simp [List.filter_cons, hge7]
    rw [hfil]
    simp only [argmax_first]
    rw [calc_c2]
    rfl
  · have h1 : identify_enrolled_speaker (some emb_c2) [profile_c2] =
        identify_loop emb_c2 [profile_c2] (none, simZero) := by
      simp only [identify_enrolled_speaker]
      rw [if_neg (by simp : ¬ ([profile_c2] = []))]
    rw [h1]
    simp only [identify_loop, hge8, Bool.and_false, Bool.false_eq_true, if_false]

/-! ## Claim C10: matcher confidence invariant -/

lemma identify_loop_confidence (e : List ℚ) :
    ∀ (ps : List VoiceProfile) (bn : Option String) (bs : SimVal),
    (bn.isSome = true → simGE bs (4/5) = true ∧ sim_canon bs) →
    ((identify_loop e ps (bn, bs)).1.isSome = true →
      simGE (identify_loop e ps (bn, bs)).2 (4/5) = true ∧
      sim_canon (identify_loop e ps (bn, bs)).2) := by
  intro ps
  induction ps with
  | nil => intro bn bs hinv; exact hinv
  | cons p ps ih =>
    intro bn bs hinv
    by_cases hcond : (simGT (calculate_voice_similarity e p) bs &&
        simGE (calculate_voice_similarity e p) (4/5)) = true
    · have hstep : identify_loop e (p :: ps) (bn, bs) =
          identify_loop e ps (some p.speaker_name, calculate_voice_similarity e p) := by
        simp only [identify_loop]
        rw [if_pos hcond]
      rw [hstep]
      exact ih _ _ (fun _ => ⟨((band_eq_true _ _).1 hcond).2, calc_canon e p⟩)
    · have hstep : identify_loop e (p :: ps) (bn, bs) = identify_loop e ps (bn, bs) := by
        simp only [identify_loop]
        rw [if_neg hcond]
      rw [hstep]
      exact ih bn bs hinv

/-- A clamped value passing `simGE · t` for `t ≥ 0` really is at least `t`. -/
lemma simGE_real_bound (s : SimVal) (t : ℚ) (ht : 0 ≤ t) (hc : sim_canon s)
    (h : simGE s t = true) : (t : ℝ) ≤ (s.num : ℝ) / Real.sqrt (s.den : ℝ) := by
  obtain ⟨hnum, hden, -⟩ := hc
  have hnum2 : (0:ℝ) ≤ (s.num : ℝ) := by exact_mod_cast hnum
  have hden2 : (0:ℝ) < (s.den : ℝ) := by exact_mod_cast hden
  have ht2 : (0:ℝ) ≤ (t : ℝ) := by exact_mod_cast ht
  have hq : t ^ 2 * s.den ≤ s.num ^ 2 := by
    have h2 := h
    simp only [simGE, decide_eq_true_eq] at h2
    exact h2
  have hsq : (t:ℝ) ^ 2 * (s.den:ℝ) ≤ (s.num:ℝ) ^ 2 := by exact_mod_cast hq
  have hsqrtpos : 0 < Real.sqrt (s.den:ℝ) := Real.sqrt_pos.2 hden2
  rw [le_div_iff₀ hsqrtpos]
  have e1 : (t:ℝ) * Real.sqrt (s.den:ℝ) = Real.sqrt ((t:ℝ) ^ 2 * (s.den:ℝ)) := by
    rw [Real.sqrt_mul (sq_nonneg _), Real.sqrt_sq ht2]
  have e2 : (s.num:ℝ) = Real.sqrt ((s.num:ℝ) ^ 2) := (Real.sqrt_sq hnum2).symm
  rw [e1, e2]
  exact Real.sqrt_le_sqrt hsq

/-- C10: the matcher only returns a speaker name together with a confidence of
at least `enrollment_threshold = 0.80`; the failure paths (no extractable
embedding, no enrolled profiles) return `(None, 0.0)`; consequently a
downstream acceptance test at 0.70 behaves identically to one at 0.80. -/
theorem identify_confidence_invariant (emb : Option (List ℚ)) (profiles : List VoiceProfile) :
    (∀ n : String, (identify_enrolled_speaker emb profiles).1 = some n →
      (4/5 : ℝ) ≤ ((identify_enrolled_speaker emb profiles).2.num : ℝ) /
        Real.sqrt ((identify_enrolled_speaker emb profiles).2.den : ℝ)) ∧
    identify_enrolled_speaker none profiles = (none, simZero) ∧
    identify_enrolled_speaker emb [] = (none, simZero) ∧
    (((identify_enrolled_speaker emb profiles).1.isSome = true ∧
        (7/10 : ℝ) ≤ ((identify_enrolled_speaker emb profiles).2.num : ℝ) /
          Real.sqrt ((identify_enrolled_speaker emb profiles).2.den : ℝ)) ↔
      ((identify_enrolled_speaker emb profiles).1.isSome = true ∧
        (4/5 : ℝ) ≤ ((identify_enrolled_speaker emb profiles).2.num : ℝ) /
          Real.sqrt ((identify_enrolled_speaker emb profiles).2.den : ℝ))) := by
  have hmain : (identify_enrolled_speaker emb profiles).1.isSome = true →
      simGE (identify_enrolled_speaker emb profiles).2 (4/5) = true ∧
      sim_canon (identify_enrolled_speaker emb profiles).2 := by
    cases emb with
    | none =>
      intro h
      simp [identify_enrolled_speaker] at h
    | some e =>
      by_cases hp : profiles = []
      · subst hp
        intro h
        simp [identify_enrolled_speaker] at h
      · have h1 : identify_enrolled_speaker (some e) profiles =
            identify_loop e profiles (none, simZero) := by
          simp only [identify_enrolled_speaker]
          rw [if_neg hp]
        rw [h1]
        exact identify_loop_confidence e profiles none simZero (fun h => by simp at h)
  have hbound : (identify_enrolled_speaker emb profiles).1.isSome = true →
      (4/5 : ℝ) ≤ ((identify_enrolled_speaker emb profiles).2.num : ℝ) /
        Real.sqrt ((identify_enrolled_speaker emb profiles).2.den : ℝ) := by
    intro h
    obtain ⟨hge, hcanon⟩ := hmain h
    have hb := simGE_real_bound _ (4/5) (by norm_num) hcanon hge
    have hc : ((4/5 : ℚ) : ℝ) = (4/5 : ℝ) := by norm_num
    rw [hc] at hb
    exact hb
  refine ⟨?_, rfl, ?_, ?_⟩
  · intro n hn
    exact hbound (by rw [hn]; rfl)
  · cases emb <;> rfl
  · constructor
    · rintro ⟨h1, -⟩
      exact ⟨h1, hbound h1⟩
    · rintro ⟨h1, h2⟩
      exact ⟨h1, le_trans (by norm_num) h2⟩

lemma calc_c10 : calculate_voice_similarity [1] profile_c10 = ⟨1, 1⟩ := by
  norm_num [calculate_voice_similarity, cosine_similarity_simple, clamp01, sum_sq,
    dot_product, profile_c10, simZero]

lemma identify_c10 :
    identify_enrolled_speaker (some [1]) [profile_c10] = (some "mom", ⟨1, 1⟩) := by
  have hge : simGE (calculate_voice_similarity [1] profile_c10) (4/5) = true := by
    rw [calc_c10]
    simp only [simGE, decide_eq_true_eq]
    norm_num
  have hgt : simGT (calculate_voice_similarity [1] profile_c10) simZero = true := by
    rw [calc_c10]
    simp only [simGT, decide_eq_true_eq, simZero]
    norm_num
  have h1 : identify_enrolled_speaker (some [1]) [profile_c10] =
      identify_loop [1] [profile_c10] (none, simZero) := by
    simp only [identify_enrolled_speaker]
    rw [if_neg (by simp : ¬ ([profile_c10] = []))]
  rw [h1]
  simp only [identify_loop, hgt, hge, Bool.and_self, if_true]
  rw [calc_c10]
  rfl

/-- Witness for C10: a concrete matched profile carries confidence 1 ≥ 0.80. -/
theorem identify_confidence_invariant_witness :
    (identify_enrolled_speaker (some [1]) [profile_c10]).1 = some "mom" ∧
    (4/5 : ℝ) ≤ ((identify_enrolled_speaker (some [1]) [profile_c10]).2.num : ℝ) /
      Real.sqrt ((identify_enrolled_speaker (some [1]) [profile_c10]).2.den : ℝ) :=
  ⟨by rw [identify_c10],
   (identify_confidence_invariant (some [1]) [profile_c10]).1 "mom" (by rw [identify_c10])⟩

/-! ## Claim C9: similarity at the profile mean -/

lemma cosine_self (e : List ℚ) (h : sum_sq e ≠ 0) :
    cosine_similarity_simple e e = ⟨sum_sq e, sum_sq e * sum_sq e⟩ := by
  unfold cosine_similarity_simple
  rw [if_neg (by simp [h])]
  rfl

/-- C9: for a stored profile with nonzero mean embedding and scores in [0, 1],
scoring the profile mean itself against the profile yields similarity exactly
`quality_score * consistency_score` (cosine self-similarity is 1, and the
clamp is a no-op since the product of the two scores lies in [0, 1]). -/
theorem similarity_at_profile_mean (name : String) (e : List ℚ) (q c : ℚ)
    (hS : sum_sq e ≠ 0) (hq0 : 0 ≤ q) (hq1 : q ≤ 1) (hc0 : 0 ≤ c) (hc1 : c ≤ 1) :
    ((calculate_voice_similarity e ⟨name, e, q, c⟩).num : ℝ) /
      Real.sqrt ((calculate_voice_similarity e ⟨name, e, q, c⟩).den : ℝ) =
      (q : ℝ) * (c : ℝ) := by
  have hpos : 0 < sum_sq e := lt_of_le_of_ne (sum_sq_nonneg e) (Ne.symm hS)
  have hcalc : calculate_voice_similarity e ⟨name, e, q, c⟩ =
      clamp01 ⟨sum_sq e * q * c, sum_sq e * sum_sq e⟩ := by
    simp only [calculate_voice_similarity, cosine_self e hS]
  rw [hcalc]
  by_cases hqc : q * c ≤ 0
  · have hqc0 : q * c = 0 := le_antisymm hqc (mul_nonneg hq0 hc0)
    have hnum : sum_sq e * q * c = 0 := by
      rw [mul_assoc, hqc0, mul_zero]
    have hcl : clamp01 ⟨sum_sq e * q * c, sum_sq e * sum_sq e⟩ = simZero := by
      unfold clamp01
      rw [if_pos (le_of_eq hnum)]
    rw [hcl]
    simp only [simZero]
    push_cast
    rw [Real.sqrt_one]
    have : (q : ℝ) * (c : ℝ) = 0 := by exact_mod_cast hqc0
    rw [this]
    norm_num
  · push_neg at hqc
    have hnumpos : 0 < sum_sq e * q * c := by
      rw [mul_assoc]
      exact mul_pos hpos hqc
    have hqcle : q * c ≤ 1 := mul_le_one₀ hq1 hc0 hc1
    by_cases h1 : q * c = 1
    · have hnum2 : sum_sq e * sum_sq e ≤ (sum_sq e * q * c) ^ 2 := by
        have : (sum_sq e * q * c) ^ 2 = (sum_sq e) ^ 2 * (q * c) ^ 2 := by ring
        rw [this, h1]
        ring_nf
        nlinarith [sq_nonneg (sum_sq e)]
      have hcl : clamp01 ⟨sum_sq e * q * c, sum_sq e * sum_sq e⟩ = ⟨1, 1⟩ := by
        unfold clamp01
        rw [if_neg (not_le.2 hnumpos), if_pos hnum2]
      rw [hcl]
      simp only []
      push_cast
      rw [Real.sqrt_one]
      have : (q : ℝ) * (c : ℝ) = 1 := by exact_mod_cast h1
      rw [this]
      norm_num
    · have hlt : q * c < 1 := lt_of_le_of_ne hqcle h1
      have hsqlt : (q * c) ^ 2 < 1 := by nlinarith [hqc, hlt]
      have hden_gt : (sum_sq e * q * c) ^ 2 < sum_sq e * sum_sq e := by
        have e3 : (sum_sq e * q * c) ^ 2 = (sum_sq e) ^ 2 * (q * c) ^ 2 := by ring
        have e4 : sum_sq e * sum_sq e = (sum_sq e) ^ 2 * 1 := by ring
        rw [e3, e4]
        exact mul_lt_mul_of_pos_left hsqlt (by positivity)
      have hcl : clamp01 ⟨sum_sq e * q * c, sum_sq e * sum_sq e⟩ =
          ⟨sum_sq e * q * c, sum_sq e * sum_sq e⟩ := by
        unfold clamp01
        rw [if_neg (not_le.2 hnumpos), if_neg (not_le.2 hden_gt)]
      rw [hcl]
      have hS2 : (0:ℝ) < (sum_sq e : ℝ) := by exact_mod_cast hpos
      have hsqrt : Real.sqrt ((sum_sq e * sum_sq e : ℚ) : ℝ) = (sum_sq e : ℝ) := by
        push_cast
        exact Real.sqrt_mul_self hS2.le
      simp only []
      rw [hsqrt]
      push_cast
      field_simp
      ring

/-- Witness for C9 at a concrete one-dimensional profile with both scores 1/2. -/
theorem similarity_at_profile_mean_witness :
    sum_sq [(1:ℚ)] ≠ 0 ∧ (0:ℚ) ≤ 1/2 ∧ (1/2:ℚ) ≤ 1 ∧
    ((calculate_voice_similarity [1] ⟨"mom", [1], 1/2, 1/2⟩).num : ℝ) /
      Real.sqrt ((calculate_voice_similarity [1] ⟨"mom", [1], 1/2, 1/2⟩).den : ℝ) =
      ((1/2 : ℚ) : ℝ) * ((1/2 : ℚ) : ℝ) :=
  ⟨by norm_num [sum_sq, dot_product], by norm_num, by norm_num,
   similarity_at_profile_mean "mom" [1] (1/2) (1/2) (by norm_num [sum_sq, dot_product])
     (by norm_num) (by norm_num) (by norm_num) (by norm_num)⟩

/-! ## Claim C4: enrollment success and profile quality -/

/-- C4 (amended: besides duration at least 15 s and overall RMS above the
noise floor, at least 5 of the 3-second windows must pass the per-window
energy gate — the original claim fails without this, see the counterexample):
enrollment then succeeds and the resulting profile has `sample_count ≥ 5` and
`quality_score = min(1, sample_count / 10 * consistency_score) ∈ [0, 1]`,
where `consistency_score = clamp(1 - mean(std) / mean(|mean|), 0, 1)` is
written out with the componentwise standard deviations
`sqrt (var_comp es j)`. -/
theorem enroll_quality_bounds (dsp : List ℚ → List ℚ) (xs : List ℚ)
    (h1 : 15 ≤ audio_duration xs) (h2 : (1/1000 : ℚ) ^ 2 ≤ mean_sq xs)
    (h5 : 5 ≤ ((window_starts xs.length).filterMap
      (fun s => extract_voice_features dsp (window_slice xs s))).length) :
    ∃ es, enroll_family_voice dsp xs = some es ∧ 5 ≤ es.length ∧
      ∀ quality : ℝ,
        quality = min 1 ((es.length : ℝ) / 10 *
          max 0 (min 1 (1 - (((List.range (emb_dim es)).map
            (fun j => Real.sqrt ((var_comp es j : ℝ)))).sum / (emb_dim es : ℝ)) /
            (mean_abs_mean es : ℝ)))) →
        0 ≤ quality ∧ quality ≤ 1 := by
  have hlen : ¬ xs.length = 0 := by
    intro h0
    rw [audio_duration, h0] at h1
    norm_num at h1
  have hok : audio_quality_ok xs = true := by
    unfold audio_quality_ok
    simp only [Bool.and_eq_true, decide_eq_true_eq]
    exact ⟨h1, h2⟩
  have hemb : extract_multiple_embeddings dsp xs =
      (window_starts xs.length).filterMap
        (fun s => extract_voice_features dsp (window_slice xs s)) := by
    simp only [extract_multiple_embeddings]
    rw [if_neg hlen, if_neg (by simp [hok]), if_pos h5]
  rcases hes : (window_starts xs.length).filterMap
      (fun s => extract_voice_features dsp (window_slice xs s)) with - | ⟨v, vs⟩
  · rw [hes] at h5
    simp at h5
  · refine ⟨v :: vs, ?_, ?_, ?_⟩
    · unfold enroll_family_voice
      rw [hemb, hes]
    · rw [hes] at h5
      exact h5
    · intro quality hq
      constructor
      · rw [hq]
        apply le_min
        · norm_num
        · exact mul_nonneg (by positivity) (le_max_left 0 _)
      · rw [hq]
        exact min_le_left _ _

lemma sum_sq_replicate (n : ℕ) (q : ℚ) : sum_sq (List.replicate n q) = n * q ^ 2 := by
  unfold sum_sq dot_product
  rw [zip_self_eq_map_sq, List.map_replicate, List.sum_replicate, nsmul_eq_mul]
  ring

lemma mean_sq_replicate (n : ℕ) (q : ℚ) (h : n ≠ 0) :
    mean_sq (List.replicate n q) = q ^ 2 := by
  unfold mean_sq
  rw [sum_sq_replicate, List.length_replicate, mul_comm, mul_div_assoc,
    div_self (by exact_mod_cast h), mul_one]

lemma window_slice_replicate (n s : ℕ) (q : ℚ) (h : s * 16000 + 48000 ≤ n) :
    window_slice (List.replicate n q) s = List.replicate 48000 q := by
  unfold window_slice
  rw [List.drop_replicate, List.take_replicate]
  congr 1
  omega

lemma extract_replicate_pass (dsp : List ℚ → List ℚ) (q : ℚ) (h : (1/100:ℚ) ^ 2 ≤ q ^ 2) :
    extract_voice_features dsp (List.replicate 48000 q) =
      some (dsp (List.replicate 48000 q)) := by
  unfold extract_voice_features
  rw [mean_sq_replicate 48000 q (by norm_num), if_neg (not_lt.2 h)]

lemma extract_replicate_fail (dsp : List ℚ → List ℚ) (q : ℚ) (h : q ^ 2 < (1/100:ℚ) ^ 2) :
    extract_voice_features dsp (List.replicate 48000 q) = none := by
  unfold extract_voice_features
  rw [mean_sq_replicate 48000 q (by norm_num), if_pos h]

lemma enroll_eq_none (dsp : List ℚ → List ℚ) (xs : List ℚ)
    (h : extract_multiple_embeddings dsp xs = []) : enroll_family_voice dsp xs = none := by
  unfold enroll_family_voice
  rw [h]

lemma length_filterMap_of_forall_some {α β : Type} (f : α → Option β) :
    ∀ (l : List α), (∀ a ∈ l, (f a).isSome = true) → (l.filterMap f).length = l.length := by
  intro l
  induction l with
  | nil => intro h; rfl
  | cons a as ih =>
    intro h
    rcases hf : f a with - | b
    · have h2 := h a (List.mem_cons_self a as)
      rw [hf] at h2
      simp at h2
    · simp only [List.filterMap_cons, hf, List.length_cons]
      rw [ih (fun x hx => h x (List.mem_cons_of_mem a hx))]

/-- Counterexample to C4 as stated: a 16-second clip of constant amplitude
0.005 has overall RMS 0.005, above the 0.001 noise floor, yet every 3-second
window fails the per-window energy gate (window RMS 0.005 < 0.01), so no
embedding is extracted and enrollment fails. -/
theorem enroll_quality_bounds_counterexample :
    15 ≤ audio_duration quiet_audio ∧
    (1/1000 : ℚ) ^ 2 ≤ mean_sq quiet_audio ∧
    enroll_family_voice dsp0 quiet_audio = none := by
  have hqa : quiet_audio = List.replicate 256000 (1/200) := rfl
  have hlen : quiet_audio.length = 256000 := by
    rw [hqa, List.length_replicate]
  have hdur : (15:ℚ) ≤ audio_duration quiet_audio := by
    rw [audio_duration, hlen]
    norm_num
  have hms : ((1/1000 : ℚ)) ^ 2 ≤ mean_sq quiet_audio := by
    rw [hqa, mean_sq_replicate 256000 (1/200) (by norm_num)]
    norm_num
  refine ⟨hdur, hms, ?_⟩
  have hok : audio_quality_ok quiet_audio = true := by
    unfold audio_quality_ok
    simp only [Bool.and_eq_true, decide_eq_true_eq]
    exact ⟨hdur, hms⟩
  have hfail : ∀ s : ℕ, s * 16000 + 48000 ≤ 256000 →
      extract_voice_features dsp0 (window_slice quiet_audio s) = none := by
    intro s hs
    rw [hqa, window_slice_replicate 256000 s (1/200) hs]
    exact extract_replicate_fail dsp0 (1/200) (by norm_num)
  have hws : window_starts 256000 = [0, 2, 4, 6, 8, 10, 12] := by decide
  have hfm : (window_starts quiet_audio.length).filterMap
      (fun s => extract_voice_features dsp0 (window_slice quiet_audio s)) = [] := by
    rw [hlen, hws]
    apply List.filterMap_eq_nil.2
    intro s hs
    fin_cases hs <;> exact hfail _ (by norm_num)
  have hext : extract_multiple_embeddings dsp0 quiet_audio = [] := by
    simp only [extract_multiple_embeddings]
    rw [if_neg (by rw [hlen]; norm_num), if_neg (by simp [hok]), hfm]
    norm_num
  exact enroll_eq_none dsp0 quiet_audio hext

/-- Witness for C4: a 15-second clip of constant amplitude 0.1 passes the
overall quality check and all six windows pass the energy gate, so enrollment
succeeds with six embeddings. -/
theorem enroll_quality_bounds_witness :
    ∃ es, enroll_family_voice dsp0 loud_audio = some es ∧ 5 ≤ es.length ∧
      ∀ quality : ℝ,
        quality = min 1 ((es.length : ℝ) / 10 *
          max 0 (min 1 (1 - (((List.range (emb_dim es)).map
            (fun j => Real.sqrt ((var_comp es j : ℝ)))).sum / (emb_dim es : ℝ)) /
            (mean_abs_mean es : ℝ)))) →
        0 ≤ quality ∧ quality ≤ 1 := by
  have hqa : loud_audio = List.replicate 240000 (1/10) := rfl
  have hlen : loud_audio.length = 240000 := by
    rw [hqa, List.length_replicate]
  have hpass : ∀ s : ℕ, s * 16000 + 48000 ≤ 240000 →
      extract_voice_features dsp0 (window_slice loud_audio s) =
        some (dsp0 (window_slice loud_audio s)) := by
    intro s hs
    rw [hqa, window_slice_replicate 240000 s (1/10) hs]
    exact extract_replicate_pass dsp0 (1/10) (by norm_num)
  have hws : window_starts 240000 = [0, 2, 4, 6, 8, 10] := by decide
  apply enroll_quality_bounds dsp0 loud_audio
  · rw [audio_duration, hlen]
    norm_num
  · rw [hqa, mean_sq_replicate 240000 (1/10) (by norm_num)]
    norm_num
  · have hall : ∀ s ∈ window_starts loud_audio.length,
        (extract_voice_features dsp0 (window_slice loud_audio s)).isSome = true := by
      rw [hlen, hws]
      intro s hs
      fin_cases hs <;> rw [hpass _ (by norm_num)] <;> rfl
    rw [length_filterMap_of_forall_some _ _ hall, hlen, hws]
    norm_num

end MedJournee
